import Mathlib

/-!
Verification development for the exchange-lifecycle orchestration logic of the
aries-cloudcontroller supply-chain demo (three React controllers: alice, faber,
acme). The JavaScript source is shallowly embedded: each React handler that
carries orchestration logic becomes a pure Lean function or a step function on
an explicit state record; the single-threaded JavaScript event loop is modelled
by treating every synchronous run of a handler (up to its first `await`) as one
atomic step, and promise resolutions as separate atomic steps.
-/

/-! ## Set-as-list helpers

The source keeps its marker collections either as plain objects used as maps
from id to a truthy flag (`storing`, `acceptingOffer`, `verifying`) or as a
JavaScript `Set` held in a ref (`autoVerifiedRef.current`).  Both are modelled
as lists of keys with membership, insertion and removal. -/

/-- Insert a key into a marker collection (JS `set[id] = true` / `Set.add`). -/
def addId (s : List String) (x : String) : List String :=
  if x ∈ s then s else s ++ [x]

/-- Remove a key from a marker collection (JS `delete set[id]` / `Set.delete`). -/
def removeId (s : List String) (x : String) : List String :=
  s.filter (fun y => decide (y ≠ x))

/-! ## `useApi.request` (client/src/hooks/useApi.js)

`request` issues a `fetch`, throws on a non-ok response (message = response
text, falling back to `statusText`), resolves `null` on status 204 or an empty
body, and otherwise resolves `JSON.parse(body)` — which itself can throw on a
malformed body, or produce `null` when the body is the literal `"null"`.
`JSON.parse` is a platform builtin, so it enters the model as an explicit
`parse` argument; `pending` / `lastError` are the hook's state after the
promise settles. -/

/-- A JavaScript value as far as `request` observes it: `JSON.parse` may
produce `null` or some other value. -/
inductive JsVal
  | null
  | val (s : String)
  deriving DecidableEq, Repr

/-- The parts of a `fetch` response read by `request`. -/
structure HttpResponse where
  ok : Bool
  status : Nat
  body : String
  statusText : String
  deriving DecidableEq, Repr

/-- How the promise returned by `request` settles. -/
inductive RequestOutcome
  | resolved (v : JsVal)
  | rejected (msg : String)
  deriving DecidableEq, Repr

/-- Outcome plus the hook state (`pending`, `lastError`) once settled. -/
structure RequestResult where
  outcome : RequestOutcome
  pending : Bool
  lastError : Option String
  deriving DecidableEq, Repr

/-- Shallow embedding of `useApi.request` applied to a response.  `parse`
models `JSON.parse`: `none` stands for a thrown `SyntaxError`. -/
def request (parse : String → Option JsVal) (resp : HttpResponse) : RequestResult :=
  if resp.ok = false then
    let msg := if resp.body = "" then resp.statusText else resp.body
    ⟨.rejected msg, false, some msg⟩
  else if resp.status = 204 then ⟨.resolved .null, false, none⟩
  else if resp.body = "" then ⟨.resolved .null, false, none⟩
  else
    match parse resp.body with
    | some v => ⟨.resolved v, false, none⟩
    | none => ⟨.rejected "SyntaxError", false, some "SyntaxError"⟩

/-- Whether an outcome is a rejection. -/
def isRejected : RequestOutcome → Bool
  | .rejected _ => true
  | .resolved _ => false

/-- A concrete stand-in for `JSON.parse` on the two bodies used in the
counterexample: the body `"null"` parses to JavaScript `null`, and the body
`"not-json"` raises a `SyntaxError`. -/
def jsonParseStub : String → Option JsVal :=
  fun s => if s = "null" then some JsVal.null else none

/-! ## In-flight guard for manual transitions
(`storeCredential` in alice `App.jsx` and acme `App.jsx`)

`storeCredential(credExId)` returns immediately when `storing[credExId]` is
set, otherwise marks the id and issues the remote `/store` call; the `finally`
block clears the mark once the call settles.  The synchronous prefix
(check, mark, dispatch) is one atomic step of the event loop. -/

/-- Guard map plus the log of remote store calls actually issued. -/
structure GuardState where
  storing : List String
  calls : List String
  deriving DecidableEq, Repr

/-- One invocation of `storeCredential` up to its `await`: duplicate ids are
dropped (`if (storing[credExId]) return`), fresh ids are marked and the remote
call is issued. -/
def storeCredential (s : GuardState) (id : String) : GuardState :=
  if id ∈ s.storing then s else ⟨addId s.storing id, s.calls ++ [id]⟩

/-- The `finally` block of `storeCredential`: the mark is cleared when the
remote call settles (success or failure). -/
def storeCredentialSettle (s : GuardState) (id : String) : GuardState :=
  ⟨removeId s.storing id, s.calls⟩

/-! ## Transition policy (per-state action buttons)

The action a page offers for a record is decided by equality tests on the
record's state tag.  Alice `App.jsx` (CredentialsPage) tests both the
hyphenated and the underscored spelling of each tag; acme `App.jsx`
(CredentialsPage) tests only the underscored spelling; both proof pages of
acme test both spellings of `presentation received`. -/

/-- Transition buttons rendered by alice CredentialsPage for a credential
exchange in the given state. -/
def aliceCredentialActions (state : String) : List String :=
  (if state = "offer-received" ∨ state = "offer_received"
    then ["request-credential"] else [])
  ++ (if state = "credential-received" ∨ state = "credential_received"
    then ["store-credential"] else [])

/-- Transition buttons rendered by acme CredentialsPage for a credential
exchange in the given state. -/
def acmeCredentialActions (state : String) : List String :=
  (if state = "offer_received" then ["request-credential"] else [])
  ++ (if state = "credential_received" then ["store-credential"] else [])

/-- Transition buttons rendered by acme ProofsPage for a presentation
exchange in the given state. -/
def acmeProofActions (state : String) : List String :=
  if state = "presentation_received" ∨ state = "presentation-received"
    then ["verify-presentation"] else []

/-! ## Racing snapshot refreshes
(`useConnections.load` in alice `App.jsx`, `ProofsPage.load` in acme `App.jsx`)

Each `load()` awaits the request and, on success, runs
`setProofs(res?.results ?? [])` / `setConnections(...)`.  There is no sequence
number and no guard against overlapping loads: each arriving response simply
overwrites the projection, so responses take effect in arrival order. -/

/-- A settled snapshot request: either its result list or a failure. -/
inductive LoadResult
  | ok (results : List String)
  | err (msg : String)
  deriving DecidableEq, Repr

/-- Completion handler of one `load()` call: a successful response replaces
the projection wholesale, a failed one only raises a toast. -/
def loadApply (current : List String) : LoadResult → List String
  | .ok rs => rs
  | .err _ => current

/-- The projection after a batch of outstanding responses settles, listed in
arrival order. -/
def runLoads (current : List String) (arrivals : List LoadResult) : List String :=
  arrivals.foldl loadApply current

/-! ## Auto-verification scanner
(`autoVerifyPresentations` effect in acme `App.jsx` ProofsPage)

On every change of `proofs`, the effect iterates over the snapshot.  For each
record it computes `exchangeId`, checks
`state === 'presentation_received' || state === 'presentation-received'`,
checks `exchangeId` is truthy and not yet in `autoVerifiedRef.current`, and if
all hold it adds the id to the set and `await`s the verify call.  The catch
branch removes the id from the set; the loop body is wholly inside try/catch,
so a failure never stops the remaining iterations. -/

/-- The fields of a presentation-exchange record read by the scanner
(the JS `proof.presentation_exchange_id || proof.pres_ex_id` collapses to one
id field; a falsy id is the empty string). -/
structure ProofRec where
  id : String
  state : String
  deriving DecidableEq, Repr

/-- State tags that qualify for auto-verification, exactly the two spellings
the effect tests. -/
def qualifies (st : String) : Bool :=
  decide (st = "presentation_received") || decide (st = "presentation-received")

/-- Whether the scanner fires the verify transition for a record, given the
current handled set: qualifying state, truthy id, id not yet handled. -/
def fires (handled : List String) (r : ProofRec) : Bool :=
  qualifies r.state && decide (r.id ≠ "") && decide (r.id ∉ handled)

/-- One full scan of a snapshot, with verify outcomes supplied by `oc`
(`oc id = true` means the remote verify call succeeded).  Returns the ids
invoked this cycle, in order, and the handled set afterwards.  Mirrors the
loop: add-before-await, delete-on-failure, continue regardless. -/
def autoVerifyScan (handled : List String) (proofs : List ProofRec)
    (oc : String → Bool) : List String × List String :=
  match proofs with
  | [] => ([], handled)
  | r :: rest =>
    if fires handled r then
      let afterCall :=
        if oc r.id then addId handled r.id else removeId (addId handled r.id) r.id
      let next := autoVerifyScan afterCall rest oc
      (r.id :: next.1, next.2)
    else autoVerifyScan handled rest oc

/-- A sequence of snapshot refresh cycles: each cycle is a snapshot plus the
verify outcomes seen during that cycle.  Returns all invoked ids and the final
handled set. -/
def runScans (handled : List String) :
    List (List ProofRec × (String → Bool)) → List String × List String
  | [] => ([], handled)
  | (ps, oc) :: rest =>
    let first := autoVerifyScan handled ps oc
    let next := runScans first.2 rest
    (first.1 ++ next.1, next.2)

/-! ### Interleaved view of the scanner

Because the loop `await`s each verify call, a scan of a newer snapshot can run
while an earlier call is still in flight.  Each loop iteration up to its
`await` is one atomic step (`hit`), and each promise resolution is another
(`resolve`).  `inflight` is the set of ids whose verify call has been issued
but has not settled. -/

/-- Global scanner state: the handled set (`autoVerifiedRef.current`), the
set of unsettled verify calls, and the log of issued verify calls. -/
structure ScannerState where
  handled : List String
  inflight : List String
  log : List String
  deriving DecidableEq, Repr

/-- Atomic scanner events. -/
inductive ScannerEvent
  | hit (r : ProofRec)
  | resolve (id : String) (ok : Bool)
  deriving DecidableEq, Repr

/-- One atomic step: `hit r` is a loop iteration reaching record `r`
(mark handled, issue the call, suspend); `resolve id ok` is that call
settling (on failure the id is removed from the handled set). -/
def scannerStep (s : ScannerState) : ScannerEvent → ScannerState
  | .hit r =>
    if fires s.handled r then
      ⟨addId s.handled r.id, addId s.inflight r.id, s.log ++ [r.id]⟩
    else s
  | .resolve id ok =>
    if id ∈ s.inflight then
      ⟨if ok then s.handled else removeId s.handled id,
        removeId s.inflight id, s.log⟩
    else s

/-- Run a sequence of scanner events. -/
def scannerRun (s : ScannerState) (evs : List ScannerEvent) : ScannerState :=
  evs.foldl scannerStep s

/-- The scanner state at page mount: empty ref set, nothing in flight. -/
def scannerInit : ScannerState := ⟨[], [], []⟩

/-! ## Fire-and-forget credential send
(`sendCredential` in faber `App.jsx`)

`sendCredential` appends a pending item with status `'sending'`, arms
`setTimeout(() => controller.abort(), SEND_TIMEOUT_MS)`, and dispatches the
request.  The `then` handler clears the timer and sets status `'completed'`;
the `catch` handler clears the timer and sets status `'failed'` with
`isTimeout = (error.name === 'AbortError')`.  A promise settles exactly once,
so at most one of the handlers runs; a timer firing after settlement aborts an
already-settled fetch, which is a no-op. -/

/-- Frontend send timeout: `const SEND_TIMEOUT_MS = 610 * 1000`. -/
def SEND_TIMEOUT_MS : Nat := 610 * 1000

/-- One tracked pending credential, plus the timer and the clock. -/
structure PendingCredential where
  status : String
  isTimeout : Bool
  timerArmed : Bool
  startedAt : Nat
  timeoutMs : Nat
  now : Nat
  deriving DecidableEq, Repr

/-- The pending item as created by `sendCredential` at time `t0`. -/
def sendCredentialStart (t0 : Nat) : PendingCredential :=
  ⟨"sending", false, true, t0, SEND_TIMEOUT_MS, t0⟩

/-- Events that can reach one pending credential. -/
inductive SendEvent
  | tick (d : Nat)
  | netOk
  | netErr
  | timerFire
  deriving DecidableEq, Repr

/-- One atomic step.  `netOk` / `netErr` are the `then` / `catch` handlers
(only an unsettled request can settle, and settlement is what runs them);
`timerFire` is the armed timeout firing — `setTimeout` never fires before its
delay has elapsed — which aborts the request: if the request is still
unsettled this rejects it with `AbortError`, running the `catch` handler with
`isTimeout = true`; if it already settled the abort is a no-op. -/
def sendCredentialStep (s : PendingCredential) : SendEvent → PendingCredential
  | .tick d => { s with now := s.now + d }
  | .netOk =>
    if s.status = "sending" then
      { s with status := "completed", timerArmed := false }
    else s
  | .netErr =>
    if s.status = "sending" then
      { s with status := "failed", isTimeout := false, timerArmed := false }
    else s
  | .timerFire =>
    if s.timerArmed = true ∧ s.startedAt + s.timeoutMs ≤ s.now then
      if s.status = "sending" then
        { s with status := "failed", isTimeout := true, timerArmed := false }
      else { s with timerArmed := false }
    else s

/-! ## Credentials-issued snapshot retention
(`CredentialsIssuedCard.load` in faber `App.jsx`)

`load` is guarded by `if (loading) return`, clears `loadError`, fetches the
exchange list, flattens nested `{cred_ex_record: ...}` items, and stores the
result with `fetchedOnce = true`.  On failure it sets
`loadError = error.message || 'Failed to load credential exchanges'` and
clears `exchanges` only when no fetch has ever succeeded
(`if (!fetchedOnce) setExchanges([])`). -/

/-- The fields of a credential-exchange record kept by the page. -/
structure CredEx where
  credExId : String
  state : String
  deriving DecidableEq, Repr

/-- A raw list item as returned by the backend: either already flat or nested
under `cred_ex_record`. -/
inductive RawItem
  | flat (e : CredEx)
  | nested (e : CredEx)
  deriving DecidableEq, Repr

/-- The flattening `list.map(...)` applies to each raw item. -/
def flattenItem : RawItem → CredEx
  | .flat e => e
  | .nested e => e

/-- Page state touched by `load`. -/
structure IssuedState where
  exchanges : List CredEx
  loading : Bool
  loadError : Option String
  fetchedOnce : Bool
  deriving DecidableEq, Repr

/-- A settled fetch of the exchange list. -/
inductive FetchResult
  | ok (items : List RawItem)
  | err (msg : String)
  deriving DecidableEq, Repr

/-- One complete `load()` call with result `r`: dropped when a load is already
running, otherwise the state after the handlers and the `finally` block. -/
def credentialsIssuedLoad (s : IssuedState) (r : FetchResult) : IssuedState :=
  if s.loading then s
  else
    match r with
    | .ok items => ⟨items.map flattenItem, false, none, true⟩
    | .err m =>
      ⟨if s.fetchedOnce then s.exchanges else [], false,
        some (if m = "" then "Failed to load credential exchanges" else m),
        s.fetchedOnce⟩

/-- The invariant tying the interleaved scanner views together: every id with
an unsettled verify call is marked handled (the mark is taken before the call
is issued and only dropped when the call fails). -/
def ScannerInv (s : ScannerState) : Prop :=
  ∀ id, id ∈ s.inflight → id ∈ s.handled

/-! ## Helper lemmas -/

theorem mem_addId {s : List String} {x a : String} :
    a ∈ addId s x ↔ a = x ∨ a ∈ s := by
  unfold addId
  split
  · constructor
    · exact fun h => Or.inr h
    · rintro (rfl | h) <;> [assumption; assumption]
  · simp [or_comm]

theorem mem_removeId {s : List String} {x a : String} :
    a ∈ removeId s x ↔ a ∈ s ∧ a ≠ x := by
  unfold removeId
  simp

theorem removeId_addId_self {s : List String} {x : String} (h : x ∉ s) :
    removeId (addId s x) x = s := by
  unfold addId removeId
  rw [if_neg h]
  rw [List.filter_append]
  have h1 : s.filter (fun y => decide (y ≠ x)) = s := by
    rw [List.filter_eq_self]
    intro a ha
    simp only [decide_eq_true_iff]
    rintro rfl
    exact h ha
  have h2 : [x].filter (fun y => decide (y ≠ x)) = [] := by simp
  rw [h1, h2, List.append_nil]

theorem fires_eq_true_iff {handled : List String} {r : ProofRec} :
    fires handled r = true ↔
      qualifies r.state = true ∧ r.id ≠ "" ∧ r.id ∉ handled := by
  simp [fires, and_assoc]

theorem autoVerifyScan_cons_fires {handled : List String} {r : ProofRec}
    {rest : List ProofRec} {oc : String → Bool} (hf : fires handled r = true) :
    autoVerifyScan handled (r :: rest) oc
      = (r.id :: (autoVerifyScan
            (if oc r.id then addId handled r.id else removeId (addId handled r.id) r.id)
            rest oc).1,
         (autoVerifyScan
            (if oc r.id then addId handled r.id else removeId (addId handled r.id) r.id)
            rest oc).2) := by
  simp [autoVerifyScan, hf]

theorem autoVerifyScan_cons_skip {handled : List String} {r : ProofRec}
    {rest : List ProofRec} {oc : String → Bool} (hf : fires handled r = false) :
    autoVerifyScan handled (r :: rest) oc = autoVerifyScan handled rest oc := by
  simp [autoVerifyScan, hf]

theorem autoVerifyScan_skip_of_handled {id : String} (proofs : List ProofRec) :
    ∀ (handled : List String) (oc : String → Bool), id ∈ handled →
      id ∈ (autoVerifyScan handled proofs oc).2
      ∧ id ∉ (autoVerifyScan handled proofs oc).1 := by
  induction proofs with
  | nil =>
    intro handled oc h
    exact ⟨h, List.not_mem_nil id⟩
  | cons r rest ih =>
    intro handled oc h
    by_cases hf : fires handled r = true
    · have hne : r.id ≠ id := by
        rcases fires_eq_true_iff.mp hf with ⟨-, -, hnm⟩
        rintro rfl
        exact hnm h
      have hmem2 : id ∈ (if oc r.id then addId handled r.id
          else removeId (addId handled r.id) r.id) := by
        split
        · exact mem_addId.mpr (Or.inr h)
        · exact mem_removeId.mpr ⟨mem_addId.mpr (Or.inr h), Ne.symm hne⟩
      obtain ⟨ha, hb⟩ := ih _ oc hmem2
      rw [autoVerifyScan_cons_fires hf]
      refine ⟨ha, ?_⟩
      intro hc
      rcases List.mem_cons.mp hc with he | hm
      · exact hne he.symm
      · exact hb hm
    · have hf2 : fires handled r = false := by
        revert hf
        cases fires handled r <;> simp
      rw [autoVerifyScan_cons_skip hf2]
      exact ih _ oc h

theorem autoVerifyScan_not_mem {id : String} (proofs : List ProofRec) :
    ∀ (handled : List String) (oc : String → Bool), id ∉ handled →
      id ∉ proofs.map ProofRec.id → id ∉ (autoVerifyScan handled proofs oc).2 := by
  induction proofs with
  | nil =>
    intro handled oc h1 _
    exact h1
  | cons r rest ih =>
    intro handled oc h1 h2
    have hne : r.id ≠ id := by
      intro he
      exact h2 (by simp [he])
    have h2' : id ∉ rest.map ProofRec.id := fun hm => h2 (by simp [hm])
    by_cases hf : fires handled r = true
    · rw [autoVerifyScan_cons_fires hf]
      refine ih _ oc ?_ h2'
      split
      · intro hmem
        rcases mem_addId.mp hmem with he | hh
        · exact hne he.symm
        · exact h1 hh
      · intro hmem
        rcases mem_removeId.mp hmem with ⟨hmem', -⟩
        rcases mem_addId.mp hmem' with he | hh
        · exact hne he.symm
        · exact h1 hh
    · have hf2 : fires handled r = false := by
        revert hf
        cases fires handled r <;> simp
      rw [autoVerifyScan_cons_skip hf2]
      exact ih _ oc h1 h2'

theorem runScans_cons (handled : List String) (ps : List ProofRec)
    (oc : String → Bool) (rest : List (List ProofRec × (String → Bool))) :
    runScans handled ((ps, oc) :: rest)
      = ((autoVerifyScan handled ps oc).1
          ++ (runScans (autoVerifyScan handled ps oc).2 rest).1,
         (runScans (autoVerifyScan handled ps oc).2 rest).2) := by
  simp [runScans]

theorem runScans_skip_of_handled {id : String}
    (cycles : List (List ProofRec × (String → Bool))) :
    ∀ handled : List String, id ∈ handled →
      id ∈ (runScans handled cycles).2 ∧ id ∉ (runScans handled cycles).1 := by
  induction cycles with
  | nil =>
    intro handled h
    exact ⟨h, List.not_mem_nil id⟩
  | cons c rest ih =>
    intro handled h
    obtain ⟨ps, oc⟩ := c
    obtain ⟨h1, h2⟩ := autoVerifyScan_skip_of_handled ps handled oc h
    obtain ⟨h3, h4⟩ := ih _ h1
    rw [runScans_cons]
    refine ⟨h3, ?_⟩
    intro hc
    rcases List.mem_append.mp hc with hm | hm
    · exact h2 hm
    · exact h4 hm

theorem scannerStep_hit_fires {s : ScannerState} {r : ProofRec}
    (hf : fires s.handled r = true) :
    scannerStep s (.hit r)
      = ⟨addId s.handled r.id, addId s.inflight r.id, s.log ++ [r.id]⟩ := by
  simp [scannerStep, hf]

theorem scannerStep_hit_skip {s : ScannerState} {r : ProofRec}
    (hf : fires s.handled r = false) :
    scannerStep s (.hit r) = s := by
  simp [scannerStep, hf]

theorem scannerStep_resolve_mem {s : ScannerState} {id : String} {ok : Bool}
    (h : id ∈ s.inflight) :
    scannerStep s (.resolve id ok)
      = ⟨if ok then s.handled else removeId s.handled id,
          removeId s.inflight id, s.log⟩ := by
  simp [scannerStep, h]

theorem scannerInv_init : ScannerInv scannerInit := by
  intro id h
  exact absurd h (List.not_mem_nil id)

theorem scannerInv_step {s : ScannerState} (hs : ScannerInv s) (ev : ScannerEvent) :
    ScannerInv (scannerStep s ev) := by
  cases ev with
  | hit r =>
    by_cases hf : fires s.handled r = true
    · rw [scannerStep_hit_fires hf]
      intro id hid
      rcases mem_addId.mp hid with he | hh
      · exact mem_addId.mpr (Or.inl he)
      · exact mem_addId.mpr (Or.inr (hs id hh))
    · have hf2 : fires s.handled r = false := by
        revert hf
        cases fires s.handled r <;> simp
      rw [scannerStep_hit_skip hf2]
      exact hs
  | resolve id ok =>
    by_cases h : id ∈ s.inflight
    · rw [scannerStep_resolve_mem h]
      intro a ha
      obtain ⟨ha1, ha2⟩ := mem_removeId.mp ha
      cases ok with
      | true => exact hs a ha1
      | false => exact mem_removeId.mpr ⟨hs a ha1, ha2⟩
    · have : scannerStep s (.resolve id ok) = s := by
        simp [scannerStep, h]
      rw [this]
      exact hs

theorem scannerInv_run (evs : List ScannerEvent) :
    ∀ s : ScannerState, ScannerInv s → ScannerInv (scannerRun s evs) := by
  induction evs with
  | nil => exact fun s hs => hs
  | cons ev rest ih => exact fun s hs => ih _ (scannerInv_step hs ev)

/-! ## Claim theorems -/

/-- C1: a second `storeCredential` invocation on the same credential-exchange
id, arriving while the first is still unresolved (the guard mark still set),
issues no second remote call: exactly one `/store` call is logged and the
second invocation leaves the state untouched (a no-op, not an error). -/
theorem c1_store_credential_single_call (s : GuardState) (id : String)
    (h : id ∉ s.storing) :
    (storeCredential (storeCredential s id) id).calls = s.calls ++ [id]
    ∧ storeCredential (storeCredential s id) id = storeCredential s id := by
  have noop : ∀ t : GuardState, id ∈ t.storing → storeCredential t id = t := by
    intro t ht
    unfold storeCredential
    rw [if_pos ht]
  have hmem : id ∈ (storeCredential s id).storing := by
    unfold storeCredential
    rw [if_neg h]
    exact mem_addId.mpr (Or.inl rfl)
  refine ⟨?_, noop _ hmem⟩
  rw [noop _ hmem]
  unfold storeCredential
  rw [if_neg h]

/-- Witness for C1 at the concrete scenario of the spec: `store-credential`
on exchange id `cx-1`, called twice back-to-back from an idle state. -/
theorem c1_store_credential_single_call_witness :
    ("cx-1" ∉ (⟨[], []⟩ : GuardState).storing)
    ∧ ((storeCredential (storeCredential ⟨[], []⟩ "cx-1") "cx-1").calls
        = [] ++ ["cx-1"]
      ∧ storeCredential (storeCredential ⟨[], []⟩ "cx-1") "cx-1"
        = storeCredential ⟨[], []⟩ "cx-1") :=
  ⟨by decide, c1_store_credential_single_call ⟨[], []⟩ "cx-1" (by decide)⟩

/-- C3 (code evaluated at the failing input): acme CredentialsPage offers no
transition for the hyphenated spellings while offering one for the underscored
spellings, so the two spellings do not resolve to the same legal-transition
set; alice CredentialsPage does treat both spellings identically. -/
theorem c3_acme_hyphen_spelling_divergence :
    acmeCredentialActions "offer-received" = []
    ∧ acmeCredentialActions "offer_received" = ["request-credential"]
    ∧ acmeCredentialActions "credential-received" = []
    ∧ acmeCredentialActions "credential_received" = ["store-credential"]
    ∧ aliceCredentialActions "offer-received" = aliceCredentialActions "offer_received"
    ∧ aliceCredentialActions "credential-received" = aliceCredentialActions "credential_received"
    ∧ acmeProofActions "presentation-received" = acmeProofActions "presentation_received" := by
  decide

/-- C4 counterexample: refresh 1 returns `["a1"]`, refresh 2 returns `["b1"]`,
and the second-issued response arrives first.  The final projection is
`["a1"]` — the first-issued refresh — not the second-issued one as the claim
requires; no response is discarded by any sequence-number check. -/
theorem c4_race_counterexample :
    runLoads [] [LoadResult.ok ["b1"], LoadResult.ok ["a1"]] = ["a1"]
    ∧ (["a1"] : List String) ≠ ["b1"] := by
  decide

/-- C4 amended: the cited `load` functions carry no sequence numbers and
discard nothing; every successful response overwrites the projection, so the
final projection reflects whichever successful response arrived last —
in particular, if the second-issued response arrives before the first, the
projection ends up reflecting the first-issued refresh. -/
theorem c4_last_arrival_wins (current : List String) (pre : List LoadResult)
    (d : List String) :
    runLoads current (pre ++ [LoadResult.ok d]) = d := by
  unfold runLoads
  rw [List.foldl_append]
  rfl

/-- C6: once a pending credential has left the `sending` status (for
`completed` or `failed`), no further event — a racing network settlement or a
late timer firing — changes its status or its timeout flag again; the second
terminal signal is a no-op, not an error. -/
theorem c6_terminal_status_stable (s : PendingCredential) (ev : SendEvent)
    (h : s.status ≠ "sending") :
    (sendCredentialStep s ev).status = s.status
    ∧ (sendCredentialStep s ev).isTimeout = s.isTimeout := by
  cases ev <;> simp [sendCredentialStep, h]
  split <;> simp

/-- Witness for C6: a task completed at time 0 is unaffected by its timer
later firing. -/
theorem c6_terminal_status_stable_witness :
    ((sendCredentialStep (sendCredentialStart 0) SendEvent.netOk).status ≠ "sending")
    ∧ ((sendCredentialStep (sendCredentialStep (sendCredentialStart 0) SendEvent.netOk)
          SendEvent.timerFire).status
        = (sendCredentialStep (sendCredentialStart 0) SendEvent.netOk).status
      ∧ (sendCredentialStep (sendCredentialStep (sendCredentialStart 0) SendEvent.netOk)
          SendEvent.timerFire).isTimeout
        = (sendCredentialStep (sendCredentialStart 0) SendEvent.netOk).isTimeout) :=
  ⟨by decide, c6_terminal_status_stable _ SendEvent.timerFire (by decide)⟩

/-- C7: once at least one fetch has succeeded (`fetchedOnce`), a failed fetch
leaves the exchange list untouched, surfaces the failure as a separate
human-readable `loadError`, finishes with `loading = false`, and does not
reset `fetchedOnce` — the stale snapshot keeps being served. -/
theorem c7_failed_fetch_keeps_snapshot (s : IssuedState) (m : String)
    (h1 : s.fetchedOnce = true) (h2 : s.loading = false) :
    (credentialsIssuedLoad s (.err m)).exchanges = s.exchanges
    ∧ (credentialsIssuedLoad s (.err m)).loadError
      = some (if m = "" then "Failed to load credential exchanges" else m)
    ∧ (credentialsIssuedLoad s (.err m)).loading = false
    ∧ (credentialsIssuedLoad s (.err m)).fetchedOnce = true := by
  simp [credentialsIssuedLoad, h1, h2]

/-- Witness for C7: a concrete failed refresh after one successful fetch. -/
theorem c7_failed_fetch_keeps_snapshot_witness :
    ((⟨[⟨"ce-1", "done"⟩], false, none, true⟩ : IssuedState).fetchedOnce = true)
    ∧ ((⟨[⟨"ce-1", "done"⟩], false, none, true⟩ : IssuedState).loading = false)
    ∧ ((credentialsIssuedLoad ⟨[⟨"ce-1", "done"⟩], false, none, true⟩ (.err "boom")).exchanges
        = [⟨"ce-1", "done"⟩]
      ∧ (credentialsIssuedLoad ⟨[⟨"ce-1", "done"⟩], false, none, true⟩ (.err "boom")).loadError
        = some (if "boom" = "" then "Failed to load credential exchanges" else "boom")
      ∧ (credentialsIssuedLoad ⟨[⟨"ce-1", "done"⟩], false, none, true⟩ (.err "boom")).loading = false
      ∧ (credentialsIssuedLoad ⟨[⟨"ce-1", "done"⟩], false, none, true⟩ (.err "boom")).fetchedOnce = true) :=
  ⟨rfl, rfl,
    c7_failed_fetch_keeps_snapshot ⟨[⟨"ce-1", "done"⟩], false, none, true⟩ "boom" rfl rfl⟩

/-- C10 counterexample: with `JSON.parse` behaving as on these two bodies
(`"null"` parses to `null`, `"not-json"` raises `SyntaxError`), an OK 200
response with body `"null"` resolves to `null` although its status is not 204
and its body is not empty, and an OK 200 response with unparseable body
rejects instead of resolving to a parsed body — both against the claim. -/
theorem c10_request_counterexample :
    (request jsonParseStub ⟨true, 200, "null", "OK"⟩).outcome
      = RequestOutcome.resolved JsVal.null
    ∧ ¬((200 : Nat) = 204 ∨ ("null" : String) = "")
    ∧ isRejected (request jsonParseStub ⟨true, 200, "not-json", "OK"⟩).outcome = true := by
  decide

/-- C2: once the auto-verify call for an identity has succeeded during a scan,
the identity stays in the handled set and is never auto-invoked again across
any number of later refresh cycles — even if later snapshots still (or again)
show it in a qualifying state; and when the call fails, the identity is
removed from the handled set, so the very next scan that shows it in a
qualifying state invokes it again. -/
theorem c2_autofire_once_and_retry (handled : List String) (r : ProofRec)
    (rest : List ProofRec) (oc : String → Bool)
    (cycles : List (List ProofRec × (String → Bool))) (st : String)
    (oc2 : String → Bool) (hf : fires handled r = true) :
    (oc r.id = true →
      r.id ∉ (runScans (autoVerifyScan handled (r :: rest) oc).2 cycles).1)
    ∧ (oc r.id = false → r.id ∉ rest.map ProofRec.id → qualifies st = true →
        r.id ∉ (autoVerifyScan handled (r :: rest) oc).2
        ∧ r.id ∈ (autoVerifyScan (autoVerifyScan handled (r :: rest) oc).2
            [⟨r.id, st⟩] oc2).1) := by
  obtain ⟨hq, hid, hnm⟩ := fires_eq_true_iff.mp hf
  constructor
  · intro hsucc
    have hmem : r.id ∈ (autoVerifyScan handled (r :: rest) oc).2 := by
      rw [autoVerifyScan_cons_fires hf, hsucc]
      simp only [if_true]
      exact (autoVerifyScan_skip_of_handled rest _ oc
        (mem_addId.mpr (Or.inl rfl))).1
    exact (runScans_skip_of_handled cycles _ hmem).2
  · intro hfail hrest hst
    have hred : (if oc r.id then addId handled r.id
        else removeId (addId handled r.id) r.id) = handled := by
      rw [hfail]
      simp only [Bool.false_eq_true, if_false]
      exact removeId_addId_self hnm
    have hafter : (autoVerifyScan handled (r :: rest) oc).2
        = (autoVerifyScan handled rest oc).2 := by
      rw [autoVerifyScan_cons_fires hf, hred]
    have hnot : r.id ∉ (autoVerifyScan handled (r :: rest) oc).2 := by
      rw [hafter]
      exact autoVerifyScan_not_mem rest _ oc hnm hrest
    refine ⟨hnot, ?_⟩
    have hfire2 : fires (autoVerifyScan handled (r :: rest) oc).2 ⟨r.id, st⟩ = true :=
      fires_eq_true_iff.mpr ⟨hst, hid, hnot⟩
    rw [autoVerifyScan_cons_fires hfire2]
    exact List.mem_cons_self _ _

/-- Witness for C2 at the spec scenario: a snapshot with the single record
`px-1` in state `presentation_received`, whose verify call fails, followed by
a retry snapshot in the same state. -/
theorem c2_autofire_once_and_retry_witness :
    (fires [] ⟨"px-1", "presentation_received"⟩ = true)
    ∧ (((fun _ => false : String → Bool) "px-1" = true →
        "px-1" ∉ (runScans (autoVerifyScan []
          [⟨"px-1", "presentation_received"⟩] (fun _ => false)).2 []).1)
      ∧ ((fun _ => false : String → Bool) "px-1" = false →
          "px-1" ∉ ([] : List ProofRec).map ProofRec.id →
          qualifies "presentation_received" = true →
          "px-1" ∉ (autoVerifyScan [] [⟨"px-1", "presentation_received"⟩]
            (fun _ => false)).2
          ∧ "px-1" ∈ (autoVerifyScan (autoVerifyScan []
              [⟨"px-1", "presentation_received"⟩] (fun _ => false)).2
              [⟨"px-1", "presentation_received"⟩] (fun _ => true)).1)) :=
  ⟨by decide,
    c2_autofire_once_and_retry [] ⟨"px-1", "presentation_received"⟩ []
      (fun _ => false) [] "presentation_received" (fun _ => true) (by decide)⟩

/-- C5 counterexample: the pending credential created by `sendCredential`,
left unsettled until the armed timer fires at the deadline, ends with status
`"failed"` (with `isTimeout = true`), not with a distinct `"timeout"` status
value as the claim states. -/
theorem c5_no_timeout_status_counterexample :
    (sendCredentialStep (sendCredentialStep (sendCredentialStart 0)
      (SendEvent.tick 610000)) SendEvent.timerFire).status = "failed"
    ∧ (sendCredentialStep (sendCredentialStep (sendCredentialStart 0)
      (SendEvent.tick 610000)) SendEvent.timerFire).isTimeout = true
    ∧ (sendCredentialStep (sendCredentialStep (sendCredentialStart 0)
      (SendEvent.tick 610000)) SendEvent.timerFire).status ≠ "timeout" := by
  decide

/-- C5 amended: a still-`sending` task with its timer armed cannot time out
before `startedAt + timeoutMs` (the timer event is a no-op earlier); from the
deadline on, the timer firing aborts the request and drives the task to
status `"failed"` with `isTimeout = true`, whereas an ordinary remote failure
yields `isTimeout = false` — the timeout outcome is distinguished by the
`isTimeout` flag (and toast), not by a dedicated `"timeout"` status value. -/
theorem c5_timeout_at_deadline (s : PendingCredential)
    (h1 : s.status = "sending") (h2 : s.timerArmed = true) :
    (s.now < s.startedAt + s.timeoutMs →
      sendCredentialStep s SendEvent.timerFire = s)
    ∧ (s.startedAt + s.timeoutMs ≤ s.now →
        (sendCredentialStep s SendEvent.timerFire).status = "failed"
        ∧ (sendCredentialStep s SendEvent.timerFire).isTimeout = true)
    ∧ (sendCredentialStep s SendEvent.netErr).isTimeout = false := by
  refine ⟨?_, ?_, ?_⟩
  · intro hlt
    simp only [sendCredentialStep]
    rw [if_neg]
    rintro ⟨-, hb⟩
    exact absurd hb (Nat.not_le.mpr hlt)
  · intro hge
    simp only [sendCredentialStep]
    rw [if_pos ⟨h2, hge⟩, if_pos h1]
    exact ⟨rfl, rfl⟩
  · simp only [sendCredentialStep]
    rw [if_pos h1]

/-- Witness for C5 at the concrete deadline: the task started at 0, with the
clock advanced exactly to `SEND_TIMEOUT_MS`. -/
theorem c5_timeout_at_deadline_witness :
    ((sendCredentialStep (sendCredentialStart 0) (SendEvent.tick 610000)).status = "sending")
    ∧ ((sendCredentialStep (sendCredentialStart 0) (SendEvent.tick 610000)).timerArmed = true)
    ∧ (((sendCredentialStep (sendCredentialStart 0) (SendEvent.tick 610000)).now
          < (sendCredentialStep (sendCredentialStart 0) (SendEvent.tick 610000)).startedAt
            + (sendCredentialStep (sendCredentialStart 0) (SendEvent.tick 610000)).timeoutMs →
        sendCredentialStep (sendCredentialStep (sendCredentialStart 0)
          (SendEvent.tick 610000)) SendEvent.timerFire
          = sendCredentialStep (sendCredentialStart 0) (SendEvent.tick 610000))
      ∧ ((sendCredentialStep (sendCredentialStart 0) (SendEvent.tick 610000)).startedAt
            + (sendCredentialStep (sendCredentialStart 0) (SendEvent.tick 610000)).timeoutMs
          ≤ (sendCredentialStep (sendCredentialStart 0) (SendEvent.tick 610000)).now →
          (sendCredentialStep (sendCredentialStep (sendCredentialStart 0)
            (SendEvent.tick 610000)) SendEvent.timerFire).status = "failed"
          ∧ (sendCredentialStep (sendCredentialStep (sendCredentialStart 0)
            (SendEvent.tick 610000)) SendEvent.timerFire).isTimeout = true)
      ∧ (sendCredentialStep (sendCredentialStep (sendCredentialStart 0)
          (SendEvent.tick 610000)) SendEvent.netErr).isTimeout = false) :=
  ⟨by decide, by decide,
    c5_timeout_at_deadline (sendCredentialStep (sendCredentialStart 0)
      (SendEvent.tick 610000)) (by decide) (by decide)⟩

/-- C8: within one scan, when the verify call for a record fails, the rest of
the snapshot is still evaluated exactly as it would have been without that
record (the failure is caught inside the loop, so nothing escapes), and the
failed identity ends the cycle outside the handled set, available for retry. -/
theorem c8_scan_failure_isolated (handled : List String) (r : ProofRec)
    (rest : List ProofRec) (oc : String → Bool)
    (h1 : fires handled r = true) (h2 : oc r.id = false)
    (h3 : r.id ∉ rest.map ProofRec.id) :
    (autoVerifyScan handled (r :: rest) oc).1
      = r.id :: (autoVerifyScan handled rest oc).1
    ∧ (autoVerifyScan handled (r :: rest) oc).2
      = (autoVerifyScan handled rest oc).2
    ∧ r.id ∉ (autoVerifyScan handled (r :: rest) oc).2 := by
  obtain ⟨hq, hid, hnm⟩ := fires_eq_true_iff.mp h1
  have hred : (if oc r.id then addId handled r.id
      else removeId (addId handled r.id) r.id) = handled := by
    rw [h2]
    simp only [Bool.false_eq_true, if_false]
    exact removeId_addId_self hnm
  have hpair : autoVerifyScan handled (r :: rest) oc
      = (r.id :: (autoVerifyScan handled rest oc).1,
         (autoVerifyScan handled rest oc).2) := by
    rw [autoVerifyScan_cons_fires h1, hred]
  refine ⟨by rw [hpair], by rw [hpair], ?_⟩
  rw [hpair]
  exact autoVerifyScan_not_mem rest _ oc hnm h3

/-- Witness for C8: record `px-1` fails while `px-2`, later in the same
snapshot, is still auto-invoked. -/
theorem c8_scan_failure_isolated_witness :
    (fires [] ⟨"px-1", "presentation_received"⟩ = true)
    ∧ ((fun _ => false : String → Bool) "px-1" = false)
    ∧ ("px-1" ∉ ([⟨"px-2", "presentation_received"⟩] : List ProofRec).map ProofRec.id)
    ∧ ((autoVerifyScan [] [⟨"px-1", "presentation_received"⟩,
          ⟨"px-2", "presentation_received"⟩] (fun _ => false)).1
        = "px-1" :: (autoVerifyScan [] [⟨"px-2", "presentation_received"⟩]
            (fun _ => false)).1
      ∧ (autoVerifyScan [] [⟨"px-1", "presentation_received"⟩,
          ⟨"px-2", "presentation_received"⟩] (fun _ => false)).2
        = (autoVerifyScan [] [⟨"px-2", "presentation_received"⟩] (fun _ => false)).2
      ∧ "px-1" ∉ (autoVerifyScan [] [⟨"px-1", "presentation_received"⟩,
          ⟨"px-2", "presentation_received"⟩] (fun _ => false)).2) :=
  ⟨by decide, rfl, by decide,
    c8_scan_failure_isolated [] ⟨"px-1", "presentation_received"⟩
      [⟨"px-2", "presentation_received"⟩] (fun _ => false)
      (by decide) rfl (by decide)⟩

/-- C9: in any reachable scanner state, an identity whose verify call is in
flight is already in the handled set (it was inserted before the call was
issued), so a further scan hitting a qualifying record with that identity
issues no new verify call; the handled entry survives a successful resolution
and is rolled back exactly by a failed one. -/
theorem c9_inflight_never_reinvoked (evs : List ScannerEvent) (r : ProofRec)
    (h1 : r.id ∈ (scannerRun scannerInit evs).inflight)
    (_h2 : qualifies r.state = true) :
    (scannerStep (scannerRun scannerInit evs) (.hit r)).log
      = (scannerRun scannerInit evs).log
    ∧ (scannerStep (scannerRun scannerInit evs) (.resolve r.id true)).handled
      = (scannerRun scannerInit evs).handled
    ∧ (scannerStep (scannerRun scannerInit evs) (.resolve r.id false)).handled
      = removeId (scannerRun scannerInit evs).handled r.id := by
  have hinv := scannerInv_run evs scannerInit scannerInv_init
  have hh : r.id ∈ (scannerRun scannerInit evs).handled := hinv _ h1
  have hf : fires (scannerRun scannerInit evs).handled r = false := by
    simp [fires, hh]
  refine ⟨by rw [scannerStep_hit_skip hf], ?_, ?_⟩
  · rw [scannerStep_resolve_mem h1]
    simp
  · rw [scannerStep_resolve_mem h1]
    simp

/-- Witness for C9: after one `hit` on `px-1`, its verify call is in flight
and a second qualifying hit on `px-1` logs no new call. -/
theorem c9_inflight_never_reinvoked_witness :
    ("px-1" ∈ (scannerRun scannerInit
        [ScannerEvent.hit ⟨"px-1", "presentation_received"⟩]).inflight)
    ∧ (qualifies "presentation_received" = true)
    ∧ ((scannerStep (scannerRun scannerInit
          [ScannerEvent.hit ⟨"px-1", "presentation_received"⟩])
          (.hit ⟨"px-1", "presentation_received"⟩)).log
        = (scannerRun scannerInit
            [ScannerEvent.hit ⟨"px-1", "presentation_received"⟩]).log
      ∧ (scannerStep (scannerRun scannerInit
          [ScannerEvent.hit ⟨"px-1", "presentation_received"⟩])
          (.resolve "px-1" true)).handled
        = (scannerRun scannerInit
            [ScannerEvent.hit ⟨"px-1", "presentation_received"⟩]).handled
      ∧ (scannerStep (scannerRun scannerInit
          [ScannerEvent.hit ⟨"px-1", "presentation_received"⟩])
          (.resolve "px-1" false)).handled
        = removeId (scannerRun scannerInit
            [ScannerEvent.hit ⟨"px-1", "presentation_received"⟩]).handled "px-1") :=
  ⟨by decide, by decide,
    c9_inflight_never_reinvoked [ScannerEvent.hit ⟨"px-1", "presentation_received"⟩]
      ⟨"px-1", "presentation_received"⟩ (by decide) (by decide)⟩

/-- C10 amended: every `request` settles with `pending = false`; it resolves
to `null` exactly when the response is OK with status 204, an empty body, or
a body that `JSON.parse` maps to `null`; more generally it resolves to a
value `v` exactly when the response is OK and either `v` is `null` with
status 204 or an empty body, or the non-empty body JSON-parses to `v` — so
every other OK response with a parseable body resolves to exactly the parsed
value; it rejects exactly when the response is not OK, or is OK with status
other than 204 and a non-empty body that `JSON.parse` fails on; and
`lastError` is cleared exactly on the resolving runs. -/
theorem c10_request_characterization (parse : String → Option JsVal)
    (resp : HttpResponse) (v : JsVal) :
    (request parse resp).pending = false
    ∧ ((request parse resp).outcome = RequestOutcome.resolved JsVal.null ↔
        resp.ok = true
        ∧ (resp.status = 204 ∨ resp.body = "" ∨ parse resp.body = some JsVal.null))
    ∧ ((request parse resp).outcome = RequestOutcome.resolved v ↔
        resp.ok = true
        ∧ (((resp.status = 204 ∨ resp.body = "") ∧ v = JsVal.null)
          ∨ (resp.status ≠ 204 ∧ resp.body ≠ "" ∧ parse resp.body = some v)))
    ∧ (isRejected (request parse resp).outcome = true ↔
        resp.ok = false
        ∨ (resp.status ≠ 204 ∧ resp.body ≠ "" ∧ parse resp.body = none))
    ∧ ((request parse resp).lastError = none ↔
        isRejected (request parse resp).outcome = false) := by
  by_cases h1 : resp.ok = false
  · have hok : resp.ok ≠ true := by simp [h1]
    simp [request, h1, isRejected, hok]
  · have hok : resp.ok = true := by
      cases hb : resp.ok
      · exact absurd hb h1
      · rfl
    by_cases h2 : resp.status = 204
    · simp [request, h1, hok, h2, isRejected, eq_comm]
    · by_cases h3 : resp.body = ""
      · simp [request, h1, hok, h2, h3, isRejected, eq_comm]
      · cases hp : parse resp.body with
        | some w =>
          simp [request, h1, hok, h2, h3, hp, isRejected, eq_comm]
        | none =>
          simp [request, h1, hok, h2, h3, hp, isRejected]
